import Mathlib

/-!
Shallow embedding of the Orbyt repository graph builder
(`src/orbyt/src/extension.ts`).  The source file concatenates three
revisions of the extension; the relevant builders are the second revision
(`buildRepoGraph`, lines 408-602, folder encapsulation) and the third
revision (`buildRepoGraph`, lines 1107-1269), embedded below as
`buildRepoGraphV2` and `buildRepoGraphV3`.  The per-file metrics
(lines 111-112, 490-491, 1167-1168) are identical in all revisions.

Modelling decisions, each repeated at the definition it concerns:
* Paths are modelled relative to the workspace root.  The source keeps
  absolute paths `root + path.sep + rel` and recovers `rel` with
  `path.relative(root, ...)`; dropping the constant root prefix is a
  bijection and `path.basename` / `path.dirname` commute with it.
* `graphology`'s documented semantics are embedded: `new Graph()` is a
  non-multi graph, `addNode` throws `UsageGraphError` on a present id,
  `addEdge` throws when an edge with the same (source, target) pair
  already exists, `getNodeAttribute` throws `NotFoundGraphError` when the
  node is missing, and `nodes()` / `edges()` iterate in insertion order.
* The Babel parse is an external library call; each scanned file carries
  the specifier list Babel would extract from its content (empty when
  parsing fails), and the builds apply the source's read-failure and
  extension gates before using it.
* The `color` / `size` node attributes (floating-point presentation
  hints derived from cluster and loc) and the `toFixed(2)` formatting of
  `avgComplexity` are not modelled; the average is kept as an exact
  rational.
-/

/-- JavaScript word character, the `\w` class of an ASCII regex:
letters, digits and underscore. -/
def isWordChar (c : Char) : Bool :=
  c.isAlpha || c.isDigit || c == '_'

/-- Wordness of an optional character; positions outside the string are
non-word, as the `\b` assertion treats the ends of the input. -/
def wordOpt : Option Char → Bool
  | none => false
  | some c => isWordChar c

/-- `content.split(sep)` for a one-character separator, on character
lists; JS `split` keeps empty segments, so the result always has one more
entry than there are separators. -/
def splitCh (sep : Char) : List Char → List (List Char)
  | [] => [[]]
  | a :: rest =>
    if a = sep then [] :: splitCh sep rest
    else
      match splitCh sep rest with
      | [] => [[a]]
      | s :: ss => (a :: s) :: ss

/-- Line metric of the source (lines 111, 490, 1167):
`content.split("\n").length`. -/
def loc (content : String) : Nat :=
  (splitCh '\n' content.toList).length

/-- The alternatives of the complexity regex
`/\b(if|for|while|case|catch|&&|\|\|)\b/g`, in alternation order. -/
def regexToks : List (List Char) :=
  [['i', 'f'], ['f', 'o', 'r'], ['w', 'h', 'i', 'l', 'e'],
   ['c', 'a', 's', 'e'], ['c', 'a', 't', 'c', 'h'], ['&', '&'], ['|', '|']]

/-- One regex alternative matches at the current position: the literal is
a prefix of the remainder `s` and the `\b` assertions hold on both sides
(`prev` is the character directly before the position). -/
def tokMatch (prev : Option Char) (tok : List Char) (s : List Char) : Bool :=
  tok.isPrefixOf s
    && (wordOpt prev != wordOpt tok.head?)
    && (wordOpt tok.getLast? != wordOpt ((s.drop tok.length).head?))

/-- The first alternative matching at this position, as JS alternation
tries them left to right. -/
def findTok (prev : Option Char) (s : List Char) : Option (List Char) :=
  regexToks.find? (fun tok => tokMatch prev tok s)

/-- Number of matches of the global regex: a leftmost scan in which every
match consumes its token, exactly how `content.match(re_g).length` counts
non-overlapping matches.  The `skip` argument models the engine's
`lastIndex` advance past the remainder of a consumed match; while
skipping, the boundary context `prev` keeps following the text. -/
def scanCount (skip : Nat) (prev : Option Char) : List Char → Nat
  | [] => 0
  | c :: rest =>
    match skip with
    | k + 1 => scanCount k (some c) rest
    | 0 =>
      match findTok prev (c :: rest) with
      | some tok => 1 + scanCount (tok.length - 1) (some c) rest
      | none => scanCount 0 (some c) rest

/-- Complexity metric of the source (lines 112, 491, 1168):
`(content.match(/\b(if|for|while|case|catch|&&|\|\|)\b/g) || []).length + 1`. -/
def complexity (content : String) : Nat :=
  scanCount 0 none content.toList + 1

/-- The keyword alternatives of the regex (every character a word
character), as opposed to the operator alternatives `&&` and `||`. -/
def kwToks : List (List Char) :=
  [['i', 'f'], ['f', 'o', 'r'], ['w', 'h', 'i', 'l', 'e'],
   ['c', 'a', 's', 'e'], ['c', 'a', 't', 'c', 'h']]

/-- A keyword occurs at this position as a whole word: it is a prefix of
the remainder and both neighbours are non-word characters or absent. -/
def kwAt (l : Option Char) (tok : List Char) (s : List Char) : Bool :=
  tok.isPrefixOf s && !(wordOpt l) && !(wordOpt ((s.drop tok.length).head?))

/-- An operator alternative occurs with `\b` holding on both sides;
around a two-character non-word literal this forces a word character on
each flank. -/
def opAt (l : Option Char) (tok : List Char) (s : List Char) : Bool :=
  tok.isPrefixOf s && wordOpt l && wordOpt ((s.drop tok.length).head?)

/-- Position-based reading of the token count: some keyword stands here
as a whole word, or some operator stands here flanked by word characters
on both sides. -/
def amendedTokAt (l : Option Char) (s : List Char) : Bool :=
  kwToks.any (fun tok => kwAt l tok s) || opAt l ['&', '&'] s || opAt l ['|', '|'] s

/-- Number of positions at which the amended token condition holds. -/
def posCount (prev : Option Char) : List Char → Nat
  | [] => 0
  | c :: rest => (if amendedTokAt prev (c :: rest) then 1 else 0) + posCount (some c) rest

/-- Amended complexity: one plus the amended positional token count. -/
def amendedComplexity (content : String) : Nat :=
  posCount none content.toList + 1

/-- The spec's reading of the token count: keywords as whole words, plus
every stand-alone occurrence of `&&` or `||` (neighbours not the
operator's own character), counted positionally. -/
def claimTokAtC5 (l : Option Char) (s : List Char) : Bool :=
  kwToks.any (fun tok => kwAt l tok s)
    || (['&', '&'].isPrefixOf s && !(l == some '&') && !((s.drop 2).head? == some '&'))
    || (['|', '|'].isPrefixOf s && !(l == some '|') && !((s.drop 2).head? == some '|'))

def claimCountC5 (prev : Option Char) : List Char → Nat
  | [] => 0
  | c :: rest => (if claimTokAtC5 prev (c :: rest) then 1 else 0) + claimCountC5 (some c) rest

/-- Complexity as the spec describes it: one plus the spec's token count. -/
def claimComplexityC5 (content : String) : Nat :=
  claimCountC5 none content.toList + 1

/-- The spec's reading of the line count: newline-delimited segments with
no extra segment for a final newline, i.e. the newline count plus one more
segment only when trailing text follows the last newline. -/
def claimLocC6 (content : String) : Nat :=
  content.toList.count '\n'
    + (if content.toList.getLast? == some '\n' || content.toList.isEmpty then 0 else 1)

/-- Churn metric (lines 114-123, 493-497, 1170-1176): the `git log
--oneline` output split on newlines with empty lines dropped
(`filter(Boolean)`); a failing command (`gitLog = none`) yields 0. -/
def commitsOf (gitLog : Option String) : Nat :=
  match gitLog with
  | none => 0
  | some out => ((splitCh '\n' out.toList).filter (fun l => !l.isEmpty)).length

/-- `path.basename`: the last `/`-separated segment. -/
def basenameJS (p : String) : String :=
  String.mk ((splitCh '/' p.toList).getLastD [])

/-- `path.dirname`: the path with its last segment removed, or `"."` when
there is no separator. -/
def dirnameJS (p : String) : String :=
  match (splitCh '/' p.toList).dropLast with
  | [] => (".")
  | segs => String.mk (List.intercalate ['/'] segs)

/-- The `/\.(js|ts|jsx|tsx)$/i` gate (lines 527, 1183) deciding whether
Babel parsing is attempted; the `/i` flag is modelled by lower-casing. -/
def parseableExt (p : String) : Bool :=
  [['.', 'j', 's'], ['.', 't', 's'], ['.', 'j', 's', 'x'], ['.', 't', 's', 'x']].any
    (fun e => e.isSuffixOf (p.toList.map Char.toLower))

/-- JS `Map.set`: overwrite in place when the key exists (the entry keeps
its original position), append otherwise. -/
def mapSet (m : List (String × String)) (k v : String) : List (String × String) :=
  if m.any (fun kv => kv.1 == k) then
    m.map (fun kv => if kv.1 == k then (k, v) else kv)
  else m ++ [(k, v)]

/-- JS `Map.get`: the value stored at a key. -/
def mapGet (m : List (String × String)) (k : String) : Option String :=
  (m.find? (fun kv => kv.1 == k)).map (fun kv => kv.2)

/-- One scanned file, as the directory walk and the external collaborators
deliver it: the root-relative path, the result of `fs.readFileSync`
(`none` models the caught throw), the import/require specifiers Babel
extracts from its content (empty when parsing fails), and the
`git log --oneline` output (`none` models a failing command). -/
structure SrcFile where
  path : String
  content : Option String
  imports : List String
  gitLog : Option String
  deriving DecidableEq

/-- The node attributes the builds store (lines 463-473, 503-513,
1211-1221); `color` / `size` are omitted presentation hints, and the
stored `id` / `path` attributes equal the node key. -/
structure NodeAttrs where
  label : String
  cluster : String
  loc : Nat
  complexity : Nat
  commits : Nat
  deriving DecidableEq

/-- A graphology `Graph` (default options: mixed, non-multi): nodes and
directed edges in insertion order. -/
structure JsGraph where
  nodes : List (String × NodeAttrs)
  edges : List (String × String)
  deriving DecidableEq

def JsGraph.hasNode (g : JsGraph) (id : String) : Bool :=
  g.nodes.any (fun kv => kv.1 == id)

def JsGraph.hasEdge (g : JsGraph) (a b : String) : Bool :=
  g.edges.any (fun e => e.1 == a && e.2 == b)

/-- `graph.addNode`: graphology throws `UsageGraphError` when the id is
already present. -/
def JsGraph.addNode (g : JsGraph) (id : String) (a : NodeAttrs) : Except String JsGraph :=
  if g.hasNode id then Except.error ("UsageGraphError: node already exists")
  else Except.ok { g with nodes := g.nodes ++ [(id, a)] }

/-- `graph.addEdge`: graphology throws `UsageGraphError` when an edge with
the same source and target already exists in a non-multi graph. -/
def JsGraph.addEdge (g : JsGraph) (a b : String) : Except String JsGraph :=
  if g.hasEdge a b then Except.error ("UsageGraphError: edge already exists")
  else Except.ok { g with edges := g.edges ++ [(a, b)] }

/-- `graph.getNodeAttribute`: graphology throws `NotFoundGraphError` when
the node is missing (it never yields `undefined` for a missing node, so
the source's `|| 0` fallbacks are dead). -/
def JsGraph.getAttr (g : JsGraph) (id : String) : Except String NodeAttrs :=
  match g.nodes.find? (fun kv => kv.1 == id) with
  | some kv => Except.ok kv.2
  | none => Except.error ("NotFoundGraphError: node not found")

/-- The basename index (lines 487, 1155-1157):
`fileIndex.set(path.basename(f), f)` over the scan list; a later file with
the same basename overwrites the value (last write wins). -/
def fileIndexOf (files : List SrcFile) : List (String × String) :=
  files.foldl (fun m f => mapSet m (basenameJS f.path) f.path) []

/-- Import resolution (lines 553-557, 1225-1229): exact basename lookup,
then the specifier with `".js"` appended, then with `".ts"` appended, then
the first index entry whose key is a suffix of the specifier; `none` when
every step misses.  The JS `||` chain only skips `undefined` (stored paths
are non-empty, hence truthy). -/
def resolveDep (idx : List (String × String)) (dep : String) : Option String :=
  match mapGet idx dep with
  | some v => some v
  | none =>
    match mapGet idx (dep ++ (".js")) with
    | some v => some v
    | none =>
      match mapGet idx (dep ++ (".ts")) with
      | some v => some v
      | none => (idx.find? (fun kv => kv.1.toList.isSuffixOf dep.toList)).map (fun kv => kv.2)

/-- Cluster of a file node in the third revision (line 1179):
`rel.includes(path.sep) ? rel.split(path.sep)[0] : "(root)"`. -/
def clusterOf (rel : String) : String :=
  if rel.toList.contains '/' then String.mk ((splitCh '/' rel.toList).headD [])
  else ("(root)")

/-- Third-revision per-file step (lines 1159-1233): a failed read skips
the file entirely (`continue`); otherwise the node is added when absent,
and every extracted specifier (Babel runs only on the
`/\.(js|ts|jsx|tsx)$/i` subset) that resolves to an already-present node
adds one edge, guarded by `!graph.hasEdge(file, depFile)`. -/
def addImportEdgeV3 (idx : List (String × String)) (fromPath : String)
    (g2 : JsGraph) (dep : String) : JsGraph :=
  match resolveDep idx dep with
  | some depFile =>
    if g2.hasNode depFile && !(g2.hasEdge fromPath depFile) then
      { g2 with edges := g2.edges ++ [(fromPath, depFile)] }
    else g2
  | none => g2

/-- The per-file body of the third-revision main loop, composing the
guarded node insertion with the guarded edge insertions above. -/
def addFileV3 (idx : List (String × String)) (g : JsGraph) (f : SrcFile) : JsGraph :=
  match f.content with
  | none => g
  | some content =>
    let attrs : NodeAttrs :=
      { label := basenameJS f.path, cluster := clusterOf f.path,
        loc := loc content, complexity := complexity content,
        commits := commitsOf f.gitLog }
    let g1 := if g.hasNode f.path then g else { g with nodes := g.nodes ++ [(f.path, attrs)] }
    let imps := if parseableExt f.path then f.imports else []
    imps.foldl (addImportEdgeV3 idx f.path) g1

/-- The third-revision graph construction over the whole scan list; every
insertion in this revision is guarded, so the construction is total. -/
def graphV3 (files : List SrcFile) : JsGraph :=
  files.foldl (addFileV3 (fileIndexOf files)) { nodes := [], edges := [] }

/-- JS `Set` insertion-order deduplication (only its size is consumed). -/
def uniqueAux (seen : List String) : List String → List String
  | [] => []
  | a :: rest => if seen.contains a then uniqueAux seen rest else a :: uniqueAux (a :: seen) rest

def uniqueList (l : List String) : List String := uniqueAux [] l

/-- The comparator `(a, b) => b.commits - a.commits` as a total preorder:
`a` may precede `b` iff `b.commits ≤ a.commits`.  ES2019 `sort` is
stable, and for a consistent comparator the stable sorted permutation is
unique; `List.insertionSort` (stable: each element is inserted before
strictly-smaller ones only) computes exactly it. -/
def commitsGE (a b : String × NodeAttrs) : Prop :=
  b.2.commits ≤ a.2.commits

instance : DecidableRel commitsGE := fun a b => Nat.decLe b.2.commits a.2.commits

instance : IsTotal (String × NodeAttrs) commitsGE :=
  ⟨fun a b => Nat.le_total b.2.commits a.2.commits⟩

instance : IsTrans (String × NodeAttrs) commitsGE :=
  ⟨fun _ _ _ hab hbc => le_trans hbc hab⟩

/-- Complexity sum of the stats pass (lines 578-581, 1247-1250):
`files.reduce((acc, f) => acc + (graph.getNodeAttribute(f, "complexity") || 0), 0)`,
running left to right with accumulator `acc`; the attribute lookup throws
for a scanned file that never became a node, aborting the reduce. -/
def statsSumFrom (g : JsGraph) (acc : Nat) : List SrcFile → Except String Nat
  | [] => Except.ok acc
  | f :: fs =>
    match g.getAttr f.path with
    | Except.ok a => statsSumFrom g (acc + a.complexity) fs
    | Except.error e => Except.error e

def statsSum (g : JsGraph) (files : List SrcFile) : Except String Nat :=
  statsSumFrom g 0 files

/-- `mostEdited` of the third revision (lines 1251-1257): all nodes,
stably sorted by commits descending, first five, projected to label and
commits; this revision has no churn filter. -/
def mostEditedV3 (g : JsGraph) : List (String × Nat) :=
  (((g.nodes.insertionSort commitsGE)).take 5).map (fun kv => (kv.2.label, kv.2.commits))

/-- Stats of a finished build (lines 592-601, 1259-1268). -/
structure BuildStats where
  avgComplexity : Rat
  mostEdited : List (String × Nat)
  totalFiles : Nat
  clusters : Nat
  deriving DecidableEq

/-- The payload `{ nodes, edges, stats }`; `stats = none` models the empty
object `{}` returned when no workspace is open. -/
structure BuildOut where
  nodes : List (String × NodeAttrs)
  edges : List (String × String)
  stats : Option BuildStats
  deriving DecidableEq

deriving instance DecidableEq for Except

/-- The third-revision `buildRepoGraph` (lines 1107-1269). -/
def buildRepoGraphV3 (ws : Option (List SrcFile)) : Except String BuildOut :=
  match ws with
  | none => Except.ok { nodes := [], edges := [], stats := none }
  | some files =>
    let g := graphV3 files
    match (if files.isEmpty then Except.ok (0 : Rat)
           else (statsSum g files).map (fun s => (s : Rat) / (files.length : Rat))) with
    | Except.error e => Except.error e
    | Except.ok avg =>
      Except.ok
        { nodes := g.nodes, edges := g.edges,
          stats := some
            { avgComplexity := avg, mostEdited := mostEditedV3 g,
              totalFiles := files.length,
              clusters := (uniqueList (g.nodes.map (fun kv => kv.2.cluster))).length } }

/-- Folder ancestors collected by the second revision (lines 450-456):
every proper prefix of the relative path's segment list, joined back with
the separator. -/
def ancestors (p : String) : List String :=
  let parts := splitCh '/' p.toList
  (List.range (parts.length - 1)).map
    (fun i => String.mk (List.intercalate ['/'] (parts.take (i + 1))))

/-- The JS `Set` of folder paths, in insertion order (lines 450-456). -/
def folderSetOf (files : List SrcFile) : List String :=
  files.foldl
    (fun acc f =>
      (ancestors f.path).foldl (fun acc2 x => if acc2.contains x then acc2 else acc2 ++ [x]) acc)
    []

/-- Owning folder in the second revision (lines 500, 551, 559):
`path.dirname(rel) || "(root)"`; `path.dirname` yields `"."` for a bare
name, which is truthy, so the `"(root)"` sentinel never fires. -/
def folderOfV2 (rel : String) : String :=
  if dirnameJS rel == ("") then ("(root)") else dirnameJS rel

/-- The second-revision `buildRepoGraph` (lines 408-602): folder nodes,
parent hierarchy edges, file nodes with hierarchy edges, then a second
pass adding import edges (unchecked `addEdge`) and cross-folder rollup
edges (unchecked `addEdge`), then stats with a `commits > 0` filter on
`mostEdited`. -/
def buildRepoGraphV2 (ws : Option (List SrcFile)) : Except String BuildOut :=
  match ws with
  | none => Except.ok { nodes := [], edges := [], stats := none }
  | some files => do
    let folders := folderSetOf files
    let g0 : JsGraph := { nodes := [], edges := [] }
    let g ← folders.foldlM
      (fun g folder =>
        if g.hasNode folder then pure g
        else g.addNode folder
          { label := ("📁 ") ++ basenameJS folder, cluster := folder,
            loc := 0, complexity := 0, commits := 0 }) g0
    let g ← folders.foldlM
      (fun g folder =>
        let parent := dirnameJS folder
        if !(parent == ("")) && !(parent == (".")) && g.hasNode parent then
          g.addEdge parent folder
        else pure g) g
    let g ← files.foldlM
      (fun g f => do
        let content := f.content.getD ("")
        let folder := folderOfV2 f.path
        let g ← g.addNode f.path
          { label := basenameJS f.path, cluster := folder,
            loc := loc content, complexity := complexity content,
            commits := commitsOf f.gitLog }
        if g.hasNode folder then g.addEdge folder f.path else pure g) g
    let idx := fileIndexOf files
    let g ← files.foldlM
      (fun g f => do
        let imps := match f.content with
          | none => []
          | some _ => if parseableExt f.path then f.imports else []
        let fromFolder := folderOfV2 f.path
        imps.foldlM
          (fun g dep => do
            match resolveDep idx dep with
            | none => pure g
            | some depFile =>
              if g.hasNode depFile then do
                let toFolder := folderOfV2 depFile
                let g ← g.addEdge f.path depFile
                if !(fromFolder == toFolder) && g.hasNode fromFolder && g.hasNode toFolder then
                  g.addEdge fromFolder toFolder
                else pure g
              else pure g) g) g
    let avg ← (if files.isEmpty then pure (0 : Rat)
               else (statsSum g files).map (fun s => (s : Rat) / (files.length : Rat)))
    let sorted := (g.nodes.filter (fun kv => decide (0 < kv.2.commits))).insertionSort commitsGE
    pure
      { nodes := g.nodes, edges := g.edges,
        stats := some
          { avgComplexity := avg,
            mostEdited := (sorted.take 5).map (fun kv => (kv.2.label, kv.2.commits)),
            totalFiles := files.length,
            clusters := (uniqueList (g.nodes.map (fun kv => kv.2.cluster))).length } }

/-- The spec's reading of the resolver (its step 2 appends every
parseable extension `js`, `ts`, `jsx`, `tsx`), for comparison with the
source's `resolveDep`, which only appends `.js` and `.ts`. -/
def resolveDepClaimC4 (idx : List (String × String)) (dep : String) : Option String :=
  match mapGet idx dep with
  | some v => some v
  | none =>
    match mapGet idx (dep ++ (".js")) with
    | some v => some v
    | none =>
      match mapGet idx (dep ++ (".ts")) with
      | some v => some v
      | none =>
        match mapGet idx (dep ++ (".jsx")) with
        | some v => some v
        | none =>
          match mapGet idx (dep ++ (".tsx")) with
          | some v => some v
          | none => (idx.find? (fun kv => kv.1.toList.isSuffixOf dep.toList)).map (fun kv => kv.2)

/-- Scenario input: `a/x.ts` resolves the same import target twice (one
`import` plus one `require` of the same specifier yields the specifier
twice), and the target lives in another folder. -/
def dupImportFiles : List SrcFile :=
  [{ path := ("a/x.ts"), content := some ("x"), imports := [("b.ts"), ("b.ts")], gitLog := none },
   { path := ("b/b.ts"), content := some ("x"), imports := [], gitLog := none }]

/-- The spec's two-file scenario: `a.ts` declares `import "./b"` and
imports the unresolvable `left-pad`; `b.ts` is also scanned. -/
def scenarioC2Files : List SrcFile :=
  [{ path := ("a.ts"), content := some ("import x\nimport y"),
     imports := [("./b"), ("left-pad")], gitLog := none },
   { path := ("b.ts"), content := some ("x"), imports := [], gitLog := none }]

/-- A single scanned file whose content read fails. -/
def unreadableFile : SrcFile :=
  { path := ("x.ts"), content := none, imports := [], gitLog := none }

/-- A single readable file with zero churn. -/
def zeroChurnFile : SrcFile :=
  { path := ("x.ts"), content := some (""), imports := [], gitLog := none }

/-- Scan list in which only the `.jsx` file could satisfy the bare
specifier `c`. -/
def jsxScanFiles : List SrcFile :=
  [{ path := ("c.jsx"), content := some (""), imports := [], gitLog := none },
   { path := ("d.ts"), content := some (""), imports := [("c")], gitLog := none }]

/-! ## Basic lemmas about the embedded primitives -/

theorem splitCh_ne_nil (sep : Char) (l : List Char) : splitCh sep l ≠ [] := by
  cases l with
  | nil => simp [splitCh]
  | cons a rest =>
    simp only [splitCh]
    split
    · simp
    · split <;> simp

theorem length_splitCh (sep : Char) (l : List Char) :
    (splitCh sep l).length = l.count sep + 1 := by
  induction l with
  | nil => simp [splitCh]
  | cons a rest ih =>
    by_cases h : a = sep
    · subst h
      simp [splitCh, ih, List.count_cons]
    · simp only [splitCh, if_neg h]
      cases hs : splitCh sep rest with
      | nil => exact absurd hs (splitCh_ne_nil sep rest)
      | cons s ss =>
        rw [hs] at ih
        simp only [List.length_cons] at ih
        simp [List.count_cons, h, Ne.symm h, ih]

/-! ## Claim theorems -/

/-- Claim C6, counterexample: the computed line count of `"a\n"` is 2,
because `split("\n")` keeps the empty segment after a trailing newline,
while the claim's reading (no extra segment for the final newline) gives
1; so the claim is false at the input `"a\n"`. -/
theorem claimC6_counterexample :
    loc ("a\n") = 2 ∧ claimLocC6 ("a\n") = 1
    ∧ (decide (loc ("a\n") = claimLocC6 ("a\n"))) = false := by decide

/-- Claim C6 (amended): for every file content the computed line count
equals the number of newline-delimited segments, which is the newline
count plus one; a file without a final newline still counts its last
segment, and a file with a final newline counts one additional empty
segment for it. -/
theorem claimC6_amended (content : String) :
    loc content = content.toList.count '\n' + 1 := by
  simp [loc, length_splitCh]

/-- Claim C8, counterexample: with no workspace root the third-revision
build returns `stats = {}` — an object with no fields at all (modelled as
`none`) — so the stats do not report `totalFiles = 0` or `clusters = 0`
as the claim states. -/
theorem claimC8_counterexample :
    buildRepoGraphV3 none = Except.ok { nodes := [], edges := [], stats := none } := by decide

/-- Claim C8 (amended): with no workspace root the build returns empty
nodes, empty edges and an empty stats object with no fields; with a
workspace whose scan finds no files it returns empty nodes, empty edges
and full stats reporting `totalFiles = 0` and `clusters = 0` (both
revisions; never a raised fault). -/
theorem claimC8_amended :
    buildRepoGraphV3 none = Except.ok { nodes := [], edges := [], stats := none }
    ∧ buildRepoGraphV3 (some []) = Except.ok
        { nodes := [], edges := [],
          stats := some { avgComplexity := 0, mostEdited := [], totalFiles := 0, clusters := 0 } }
    ∧ buildRepoGraphV2 none = Except.ok { nodes := [], edges := [], stats := none }
    ∧ buildRepoGraphV2 (some []) = Except.ok
        { nodes := [], edges := [],
          stats := some { avgComplexity := 0, mostEdited := [], totalFiles := 0, clusters := 0 } } := by
  decide

/-- Claim C2, counterexample: in the spec's scenario the build emits no
edge at all — in particular not the claimed import edge from `a.ts` to
`b.ts` — because the specifier `./b` misses every resolution step of the
basename index (`"./b"`, `"./b.js"`, `"./b.ts"` are not basenames and no
basename is a suffix of `"./b"`). -/
theorem claimC2_counterexample :
    (buildRepoGraphV3 (some scenarioC2Files)).map (fun r => r.edges) = Except.ok []
    ∧ (buildRepoGraphV3 (some scenarioC2Files)).map
        (fun r => r.edges.contains ((("a.ts"), ("b.ts")))) = Except.ok false := by decide

/-- Claim C2 (amended): the scenario build produces exactly the two file
nodes `a.ts` and `b.ts`, no node for `left-pad`, and no edge whatsoever:
both `./b` (relative specifier, unresolvable against the basename index)
and `left-pad` are silently dropped. -/
theorem claimC2_amended :
    (buildRepoGraphV3 (some scenarioC2Files)).map (fun r => r.nodes.map Prod.fst)
      = Except.ok [("a.ts"), ("b.ts")]
    ∧ (buildRepoGraphV3 (some scenarioC2Files)).map (fun r => r.edges) = Except.ok []
    ∧ (buildRepoGraphV3 (some scenarioC2Files)).map
        (fun r => r.nodes.any (fun kv => kv.1 == ("left-pad") || kv.2.label == ("left-pad")))
      = Except.ok false
    ∧ resolveDep (fileIndexOf scenarioC2Files) ("./b") = none
    ∧ resolveDep (fileIndexOf scenarioC2Files) ("left-pad") = none := by decide

/-- Claim C4, counterexample: for the bare specifier `c` with only
`c.jsx` scanned, the claimed resolution order (step 2 appending each of
`js`, `ts`, `jsx`, `tsx`) would hit `c.jsx`, but the source only appends
`.js` and `.ts`, so resolution misses and no edge is emitted. -/
theorem claimC4_counterexample :
    resolveDepClaimC4 (fileIndexOf jsxScanFiles) ("c") = some ("c.jsx")
    ∧ resolveDep (fileIndexOf jsxScanFiles) ("c") = none
    ∧ (buildRepoGraphV3 (some jsxScanFiles)).map (fun r => r.edges) = Except.ok [] := by decide

/-- Claim C4 (amended): resolution proceeds in order — (1) exact basename
lookup, (2) the specifier with `.js` appended and then with `.ts`
appended (the extensions `jsx` and `tsx` are never tried), (3) the
fallback search for an indexed basename that is a suffix of the
specifier — and the first hit wins. -/
theorem claimC4_amended (idx : List (String × String)) (dep : String) :
    (∀ v, mapGet idx dep = some v → resolveDep idx dep = some v)
    ∧ (mapGet idx dep = none →
        ∀ v, mapGet idx (dep ++ (".js")) = some v → resolveDep idx dep = some v)
    ∧ (mapGet idx dep = none → mapGet idx (dep ++ (".js")) = none →
        ∀ v, mapGet idx (dep ++ (".ts")) = some v → resolveDep idx dep = some v)
    ∧ (mapGet idx dep = none → mapGet idx (dep ++ (".js")) = none →
        mapGet idx (dep ++ (".ts")) = none →
        resolveDep idx dep
          = (idx.find? (fun kv => kv.1.toList.isSuffixOf dep.toList)).map (fun kv => kv.2)) := by
  refine ⟨?_, ?_, ?_, ?_⟩
  · intro v h
    simp [resolveDep, h]
  · intro h1 v h
    simp [resolveDep, h1, h]
  · intro h1 h2 v h
    simp [resolveDep, h1, h2, h]
  · intro h1 h2 h3
    simp [resolveDep, h1, h2, h3]

/-- Witness for C4 (amended), at a concrete index and specifier: an exact
basename hit resolves to its stored path. -/
theorem claimC4_witness :
    resolveDep [(("b.ts"), ("b/b.ts"))] ("b.ts") = some ("b/b.ts") :=
  (claimC4_amended [(("b.ts"), ("b/b.ts"))] ("b.ts")).1 ("b/b.ts") (by decide)

/-- Claim C7, counterexample: in the third revision `mostEdited` has no
churn filter; a build over a single file with zero commits reports that
file in `mostEdited` with churn 0, contradicting the claimed
`churn > 0` restriction. -/
theorem claimC7_counterexample :
    (buildRepoGraphV3 (some [zeroChurnFile])).map (fun r => r.stats.map (fun s => s.mostEdited))
      = Except.ok (some [(("x.ts"), 0)])
    ∧ ([(("x.ts"), (0 : Nat))].all (fun e => decide (0 < e.2))) = false := by decide

/-- Claim C1, counterexample: in the second-revision build the import and
rollup `addEdge` calls are unguarded, and graphology throws on a
duplicate (from, to) pair in a non-multi graph; a file whose import list
resolves the same target twice therefore aborts the whole build with an
error instead of being a no-op. -/
theorem claimC1_counterexample :
    buildRepoGraphV2 (some dupImportFiles)
      = Except.error ("UsageGraphError: edge already exists") := by decide

/-- Claim C3, counterexample: in the second-revision build a failed read
is caught with an empty catch, the content stays `""`, and the file IS
added as a node with loc 1 and complexity 1 — it is not omitted from the
node set. -/
theorem claimC3_counterexample :
    (buildRepoGraphV2 (some [unreadableFile])).map (fun r => r.nodes)
      = Except.ok
          [(("x.ts"),
            { label := ("x.ts"), cluster := ("."), loc := 1, complexity := 1, commits := 0 })] := by
  decide

/-- Claim C10, counterexample: in the third revision a scanned file whose
read fails is skipped during construction, and the stats pass then calls
`getNodeAttribute` on the missing node, which graphology answers with a
thrown `NotFoundGraphError`; the build therefore produces no stats at all
(rather than a stats object with `totalFiles` exceeding the node count). -/
theorem claimC10_counterexample :
    buildRepoGraphV3 (some [unreadableFile])
      = Except.error ("NotFoundGraphError: node not found") := by decide

/-- Claim C9: re-running either build on the same inputs (same scan list,
same contents, same extracted specifiers, same git history) yields the
same result; in particular the node and edge sets agree element for
element.  All inputs of the build are explicit here; the source's only
nondeterminism (`Math.random` in `getNonce`) lies outside
`buildRepoGraph`, and JS `Map` / `Set` / array iteration orders are
deterministic by the language specification. -/
theorem claimC9_deterministic (ws : Option (List SrcFile)) (r1 r2 : BuildOut)
    (h1 : buildRepoGraphV2 ws = Except.ok r1) (h2 : buildRepoGraphV2 ws = Except.ok r2) :
    (∀ n, n ∈ r1.nodes ↔ n ∈ r2.nodes) ∧ (∀ e, e ∈ r1.edges ↔ e ∈ r2.edges) ∧ r1 = r2
    ∧ buildRepoGraphV3 ws = buildRepoGraphV3 ws := by
  have h : Except.ok (ε := String) r1 = Except.ok r2 := h1.symm.trans h2
  have hr : r1 = r2 := Except.ok.inj h
  subst hr
  exact ⟨fun n => Iff.rfl, fun e => Iff.rfl, rfl, rfl⟩

/-- Witness for C9, at the concrete empty workspace. -/
theorem claimC9_witness :
    ({ nodes := [], edges := [],
       stats := some { avgComplexity := 0, mostEdited := [], totalFiles := 0, clusters := 0 } } : BuildOut)
      = { nodes := [], edges := [],
          stats := some { avgComplexity := 0, mostEdited := [], totalFiles := 0, clusters := 0 } } :=
  (claimC9_deterministic (some [])
    { nodes := [], edges := [],
      stats := some { avgComplexity := 0, mostEdited := [], totalFiles := 0, clusters := 0 } }
    { nodes := [], edges := [],
      stats := some { avgComplexity := 0, mostEdited := [], totalFiles := 0, clusters := 0 } }
    (by decide) (by decide)).2.2.1

/-! ## Lemmas about the third-revision graph construction -/

theorem hasNode_iff_mem_map (g : JsGraph) (id : String) :
    g.hasNode id = true ↔ id ∈ g.nodes.map Prod.fst := by
  simp only [JsGraph.hasNode, List.any_eq_true, beq_iff_eq, List.mem_map]

theorem hasEdge_iff_mem (g : JsGraph) (a b : String) :
    g.hasEdge a b = true ↔ (a, b) ∈ g.edges := by
  simp only [JsGraph.hasEdge, List.any_eq_true, Bool.and_eq_true, beq_iff_eq]
  constructor
  · rintro ⟨⟨x1, x2⟩, hmem, rfl, rfl⟩
    exact hmem
  · intro h
    exact ⟨(a, b), h, rfl, rfl⟩

theorem nodes_addImportEdgeV3 (idx : List (String × String)) (fp : String)
    (g : JsGraph) (dep : String) : (addImportEdgeV3 idx fp g dep).nodes = g.nodes := by
  unfold addImportEdgeV3
  cases resolveDep idx dep with
  | none => rfl
  | some d =>
    dsimp only
    split <;> rfl

theorem nodes_foldl_addImportEdgeV3 (idx : List (String × String)) (fp : String)
    (imps : List String) (g : JsGraph) :
    (imps.foldl (addImportEdgeV3 idx fp) g).nodes = g.nodes := by
  induction imps generalizing g with
  | nil => rfl
  | cons d ds ih => rw [List.foldl_cons, ih, nodes_addImportEdgeV3]

theorem hasNode_foldl_addImportEdgeV3 (idx : List (String × String)) (fp : String)
    (imps : List String) (g : JsGraph) (id : String) :
    (imps.foldl (addImportEdgeV3 idx fp) g).hasNode id = g.hasNode id := by
  simp only [JsGraph.hasNode, nodes_foldl_addImportEdgeV3]

theorem hasNode_addFileV3_mono (idx : List (String × String)) (g : JsGraph) (f : SrcFile)
    (id : String) (h : g.hasNode id = true) : (addFileV3 idx g f).hasNode id = true := by
  unfold addFileV3
  cases f.content with
  | none => exact h
  | some content =>
    dsimp only
    rw [hasNode_foldl_addImportEdgeV3]
    split
    · exact h
    · simp only [JsGraph.hasNode, List.any_append] at h ⊢
      simp [h]

theorem hasNode_addFileV3_self (idx : List (String × String)) (g : JsGraph) (f : SrcFile)
    (h : f.content.isSome = true) : (addFileV3 idx g f).hasNode f.path = true := by
  unfold addFileV3
  cases hc : f.content with
  | none => rw [hc] at h; cases h
  | some content =>
    dsimp only
    rw [hasNode_foldl_addImportEdgeV3]
    split
    · assumption
    · simp [JsGraph.hasNode, List.any_append]

theorem hasNode_addFileV3_src (idx : List (String × String)) (g : JsGraph) (f : SrcFile)
    (id : String) (h : (addFileV3 idx g f).hasNode id = true) :
    g.hasNode id = true ∨ (id = f.path ∧ f.content.isSome = true) := by
  unfold addFileV3 at h
  cases hc : f.content with
  | none => rw [hc] at h; exact Or.inl h
  | some content =>
    rw [hc] at h
    dsimp only at h
    rw [hasNode_foldl_addImportEdgeV3] at h
    revert h
    split
    · intro h
      exact Or.inl h
    · intro h
      simp only [JsGraph.hasNode, List.any_append, Bool.or_eq_true] at h
      rcases h with h | h
      · exact Or.inl h
      · simp only [List.any_cons, List.any_nil, Bool.or_false, beq_iff_eq] at h
        exact Or.inr ⟨h.symm, rfl⟩

theorem hasNode_foldl_addFileV3_mono (idx : List (String × String)) (files : List SrcFile)
    (g : JsGraph) (id : String) (h : g.hasNode id = true) :
    (files.foldl (addFileV3 idx) g).hasNode id = true := by
  induction files generalizing g with
  | nil => exact h
  | cons x xs ih =>
    rw [List.foldl_cons]
    exact ih _ (hasNode_addFileV3_mono idx g x id h)

theorem hasNode_foldl_addFileV3_mem (idx : List (String × String)) (files : List SrcFile)
    (g : JsGraph) (f : SrcFile) (hf : f ∈ files) (hs : f.content.isSome = true) :
    (files.foldl (addFileV3 idx) g).hasNode f.path = true := by
  induction files generalizing g with
  | nil => cases hf
  | cons x xs ih =>
    rw [List.foldl_cons]
    rcases List.mem_cons.mp hf with rfl | hmem
    · exact hasNode_foldl_addFileV3_mono idx xs _ f.path (hasNode_addFileV3_self idx g f hs)
    · exact ih _ hmem

theorem hasNode_foldl_addFileV3_src (idx : List (String × String)) (files : List SrcFile)
    (g : JsGraph) (id : String)
    (h : (files.foldl (addFileV3 idx) g).hasNode id = true) :
    g.hasNode id = true ∨ ∃ f ∈ files, f.path = id ∧ f.content.isSome = true := by
  induction files generalizing g with
  | nil => exact Or.inl h
  | cons x xs ih =>
    rw [List.foldl_cons] at h
    rcases ih (addFileV3 idx g x) h with h1 | ⟨f', hf', he, hs⟩
    · rcases hasNode_addFileV3_src idx g x id h1 with hg | ⟨rfl, hs⟩
      · exact Or.inl hg
      · exact Or.inr ⟨x, List.mem_cons_self x xs, rfl, hs⟩
    · exact Or.inr ⟨f', List.mem_cons_of_mem x hf', he, hs⟩

/-- Claim C3 (amended): in the third-revision build a scanned file whose
content read fails is omitted entirely from the node set, and the loop
continues over the remaining files: the constructed graph has a node
with a given id exactly when some scanned file with that path was read
successfully.  (In the second-revision build the claim fails: the
read-failing file is added with metrics of empty content, see the
counterexample; and the third revision's later stats pass fails on the
missing node, see C10.) -/
theorem claimC3_amended (files : List SrcFile) (id : String) :
    (graphV3 files).hasNode id = true ↔
      ∃ f ∈ files, f.path = id ∧ f.content.isSome = true := by
  constructor
  · intro h
    rcases hasNode_foldl_addFileV3_src _ files _ id h with h0 | h1
    · simp [JsGraph.hasNode] at h0
    · exact h1
  · rintro ⟨f, hf, rfl, hs⟩
    exact hasNode_foldl_addFileV3_mem _ files _ f hf hs

/-- Witness for C3 (amended), at a concrete one-file scan. -/
theorem claimC3_witness :
    ∃ f ∈ [zeroChurnFile], f.path = ("x.ts") ∧ f.content.isSome = true :=
  (claimC3_amended [zeroChurnFile] ("x.ts")).mp (by decide)

/-! ## Deduplication invariants of the third-revision construction -/

theorem edges_nodup_addImportEdgeV3 (idx : List (String × String)) (fp : String)
    (g : JsGraph) (dep : String) (h : g.edges.Nodup) :
    (addImportEdgeV3 idx fp g dep).edges.Nodup := by
  unfold addImportEdgeV3
  cases hr : resolveDep idx dep with
  | none => exact h
  | some d =>
    dsimp only
    split
    · rename_i hcond
      have hne : (fp, d) ∉ g.edges := by
        intro hmem
        have hE := (hasEdge_iff_mem g fp d).mpr hmem
        rw [hE] at hcond
        simp at hcond
      refine List.Nodup.append h (List.nodup_singleton _) ?_
      intro a ha hb
      simp only [List.mem_singleton] at hb
      subst hb
      exact hne ha
    · exact h

theorem edges_nodup_foldl_addImportEdgeV3 (idx : List (String × String)) (fp : String)
    (imps : List String) (g : JsGraph) (h : g.edges.Nodup) :
    ((imps.foldl (addImportEdgeV3 idx fp) g).edges).Nodup := by
  induction imps generalizing g with
  | nil => exact h
  | cons d ds ih =>
    rw [List.foldl_cons]
    exact ih _ (edges_nodup_addImportEdgeV3 idx fp g d h)

theorem edges_nodup_addFileV3 (idx : List (String × String)) (g : JsGraph) (f : SrcFile)
    (h : g.edges.Nodup) : (addFileV3 idx g f).edges.Nodup := by
  unfold addFileV3
  cases f.content with
  | none => exact h
  | some content =>
    dsimp only
    apply edges_nodup_foldl_addImportEdgeV3
    split
    · exact h
    · exact h

theorem edges_nodup_foldl_addFileV3 (idx : List (String × String)) (files : List SrcFile)
    (g : JsGraph) (h : g.edges.Nodup) :
    ((files.foldl (addFileV3 idx) g).edges).Nodup := by
  induction files generalizing g with
  | nil => exact h
  | cons x xs ih =>
    rw [List.foldl_cons]
    exact ih _ (edges_nodup_addFileV3 idx g x h)

theorem nodesFst_nodup_addFileV3 (idx : List (String × String)) (g : JsGraph) (f : SrcFile)
    (h : (g.nodes.map Prod.fst).Nodup) : ((addFileV3 idx g f).nodes.map Prod.fst).Nodup := by
  unfold addFileV3
  cases f.content with
  | none => exact h
  | some content =>
    dsimp only
    rw [nodes_foldl_addImportEdgeV3]
    split
    · exact h
    · rename_i hnot
      have hne : f.path ∉ g.nodes.map Prod.fst := by
        intro hmem
        exact hnot ((hasNode_iff_mem_map g f.path).mpr hmem)
      rw [List.map_append]
      refine List.Nodup.append h (by simp) ?_
      intro a ha hb
      simp only [List.map_cons, List.map_nil, List.mem_singleton] at hb
      subst hb
      exact hne ha

theorem nodesFst_nodup_foldl_addFileV3 (idx : List (String × String)) (files : List SrcFile)
    (g : JsGraph) (h : (g.nodes.map Prod.fst).Nodup) :
    (((files.foldl (addFileV3 idx) g).nodes.map Prod.fst)).Nodup := by
  induction files generalizing g with
  | nil => exact h
  | cons x xs ih =>
    rw [List.foldl_cons]
    exact ih _ (nodesFst_nodup_addFileV3 idx g x h)

/-! ## Inversion helpers for the third-revision build -/

theorem buildV3_ok_of_scrutinee (files : List SrcFile) (avg : Rat)
    (h : (if files.isEmpty then Except.ok (0 : Rat)
          else (statsSum (graphV3 files) files).map
            (fun s => (s : Rat) / (files.length : Rat))) = Except.ok avg) :
    buildRepoGraphV3 (some files) = Except.ok
      { nodes := (graphV3 files).nodes, edges := (graphV3 files).edges,
        stats := some
          { avgComplexity := avg, mostEdited := mostEditedV3 (graphV3 files),
            totalFiles := files.length,
            clusters :=
              (uniqueList ((graphV3 files).nodes.map (fun kv => kv.2.cluster))).length } } := by
  simp only [buildRepoGraphV3]
  rw [h]

theorem buildV3_error_of_scrutinee (files : List SrcFile) (e : String)
    (h : (if files.isEmpty then Except.ok (0 : Rat)
          else (statsSum (graphV3 files) files).map
            (fun s => (s : Rat) / (files.length : Rat))) = Except.error e) :
    buildRepoGraphV3 (some files) = Except.error e := by
  simp only [buildRepoGraphV3]
  rw [h]

/-- Claim C1 (amended): in the third-revision build every node insertion
is guarded by `hasNode` and every import-edge insertion by `hasEdge`, so
a successful build contains no duplicate (from, to) pair among its edges
and no duplicate node id, even when a file's import list resolves the
same target twice.  (In the second-revision build the claim fails: the
unguarded import and rollup `addEdge` calls make graphology throw on a
duplicate pair, aborting the build — see the counterexample.) -/
theorem claimC1_amended (files : List SrcFile) (r : BuildOut)
    (h : buildRepoGraphV3 (some files) = Except.ok r) :
    r.edges.Nodup ∧ (r.nodes.map Prod.fst).Nodup := by
  cases hsc : (if files.isEmpty then Except.ok (0 : Rat)
               else (statsSum (graphV3 files) files).map
                 (fun s => (s : Rat) / (files.length : Rat))) with
  | error e =>
    rw [buildV3_error_of_scrutinee files e hsc] at h
    cases h
  | ok avg =>
    rw [buildV3_ok_of_scrutinee files avg hsc] at h
    have hr := Except.ok.inj h
    rw [← hr]
    constructor
    · exact edges_nodup_foldl_addFileV3 _ files _ (by simp)
    · exact nodesFst_nodup_foldl_addFileV3 _ files _ (by simp)

/-- Witness for C1 (amended), at a concrete successful one-file build. -/
theorem claimC1_witness :
    ∃ r : BuildOut, buildRepoGraphV3 (some [zeroChurnFile]) = Except.ok r
      ∧ r.edges.Nodup ∧ (r.nodes.map Prod.fst).Nodup := by
  have hok : (buildRepoGraphV3 (some [zeroChurnFile])).isOk = true := by decide
  cases hb : buildRepoGraphV3 (some [zeroChurnFile]) with
  | error e =>
    rw [hb] at hok
    simp [Except.isOk, Except.toBool] at hok
  | ok r => exact ⟨r, rfl, claimC1_amended [zeroChurnFile] r hb⟩

/-! ## The stats pass over missing nodes -/

theorem getAttr_ok_of_hasNode (g : JsGraph) (id : String) (h : g.hasNode id = true) :
    ∃ a, g.getAttr id = Except.ok a := by
  unfold JsGraph.getAttr
  cases hf : g.nodes.find? (fun kv => kv.1 == id) with
  | some kv => exact ⟨kv.2, rfl⟩
  | none =>
    rw [List.find?_eq_none] at hf
    simp only [JsGraph.hasNode, List.any_eq_true] at h
    obtain ⟨kv, hkv, hb⟩ := h
    exact absurd hb (hf kv hkv)

theorem getAttr_error_of_not_hasNode (g : JsGraph) (id : String)
    (h : g.hasNode id = false) :
    g.getAttr id = Except.error ("NotFoundGraphError: node not found") := by
  unfold JsGraph.getAttr
  cases hf : g.nodes.find? (fun kv => kv.1 == id) with
  | none => rfl
  | some kv =>
    exfalso
    have hm := List.mem_of_find?_eq_some hf
    have hp := List.find?_some hf
    have ht : g.hasNode id = true := by
      simp only [JsGraph.hasNode, List.any_eq_true]
      exact ⟨kv, hm, hp⟩
    rw [h] at ht
    cases ht

theorem statsSumFrom_ok (g : JsGraph) :
    ∀ (files : List SrcFile) (acc : Nat), (∀ f ∈ files, g.hasNode f.path = true) →
      ∃ n, statsSumFrom g acc files = Except.ok n := by
  intro files
  induction files with
  | nil => intro acc _; exact ⟨acc, rfl⟩
  | cons x xs ih =>
    intro acc h
    obtain ⟨a, ha⟩ := getAttr_ok_of_hasNode g x.path (h x (List.mem_cons_self x xs))
    simp only [statsSumFrom, ha]
    exact ih _ (fun f hf => h f (List.mem_cons_of_mem x hf))

theorem statsSumFrom_error (g : JsGraph) :
    ∀ (files : List SrcFile) (acc : Nat), (∃ f ∈ files, g.hasNode f.path = false) →
      ∃ e, statsSumFrom g acc files = Except.error e := by
  intro files
  induction files with
  | nil =>
    rintro acc ⟨f, hf, _⟩
    cases hf
  | cons x xs ih =>
    rintro acc ⟨f, hf, hn⟩
    cases hx : g.hasNode x.path with
    | false =>
      have he := getAttr_error_of_not_hasNode g x.path hx
      exact ⟨("NotFoundGraphError: node not found"), by simp only [statsSumFrom, he]⟩
    | true =>
      obtain ⟨a, ha⟩ := getAttr_ok_of_hasNode g x.path hx
      rcases List.mem_cons.mp hf with rfl | hmem
      · rw [hx] at hn
        cases hn
      · obtain ⟨e, he2⟩ := ih (acc + a.complexity) ⟨f, hmem, hn⟩
        exact ⟨e, by simp only [statsSumFrom, ha]; exact he2⟩

/-- Claim C10 (amended): `totalFiles` and `avgComplexity` are computed
over the scanned-file list, and `totalFiles` equals the scanned count in
every build that completes; but a third-revision build in which some
scanned file's read fails does NOT complete: the complexity lookup on the
missing node raises, so no stats (and no `totalFiles` exceeding the node
count) are ever produced. -/
theorem claimC10_amended (files : List SrcFile) :
    ((∀ f ∈ files, f.content.isSome = true) →
      ∃ r s, buildRepoGraphV3 (some files) = Except.ok r ∧ r.stats = some s
        ∧ s.totalFiles = files.length)
    ∧ ((files.map (fun f => f.path)).Nodup → (∃ f ∈ files, f.content = none) →
      ∃ e, buildRepoGraphV3 (some files) = Except.error e) := by
  constructor
  · intro hall
    by_cases he : files.isEmpty
    · refine ⟨_, _, buildV3_ok_of_scrutinee files 0 (by rw [if_pos he]), rfl, rfl⟩
    · have hnodes : ∀ f ∈ files, (graphV3 files).hasNode f.path = true := by
        intro f hf
        exact hasNode_foldl_addFileV3_mem _ files _ f hf (hall f hf)
      obtain ⟨n, hn⟩ := statsSumFrom_ok (graphV3 files) files 0 hnodes
      have hsum : statsSum (graphV3 files) files = Except.ok n := hn
      refine ⟨_, _, buildV3_ok_of_scrutinee files ((n : Rat) / (files.length : Rat)) ?_, rfl, rfl⟩
      rw [if_neg he, hsum]
      rfl
  · rintro hnodup ⟨f, hf, hnone⟩
    have hno : (graphV3 files).hasNode f.path = false := by
      cases hx : (graphV3 files).hasNode f.path with
      | false => rfl
      | true =>
        exfalso
        rcases hasNode_foldl_addFileV3_src _ files _ f.path hx with h0 | ⟨f', hf', he, hs⟩
        · simp [JsGraph.hasNode] at h0
        · have : f' = f := List.inj_on_of_nodup_map hnodup hf' hf he
          rw [this, hnone] at hs
          cases hs
    obtain ⟨e, hee⟩ := statsSumFrom_error (graphV3 files) files 0 ⟨f, hf, hno⟩
    have hsum : statsSum (graphV3 files) files = Except.error e := hee
    have hne : files.isEmpty = false := by
      cases files with
      | nil => cases hf
      | cons a l => rfl
    refine ⟨e, buildV3_error_of_scrutinee files e ?_⟩
    rw [if_neg (by simp [hne]), hsum]
    rfl

/-- Witness for C10 (amended), at a concrete readable build and a
concrete build with an unreadable file. -/
theorem claimC10_witness :
    (∃ r s, buildRepoGraphV3 (some [zeroChurnFile]) = Except.ok r ∧ r.stats = some s
      ∧ s.totalFiles = [zeroChurnFile].length)
    ∧ (∃ e, buildRepoGraphV3 (some [unreadableFile]) = Except.error e) :=
  ⟨(claimC10_amended [zeroChurnFile]).1 (by decide),
   (claimC10_amended [unreadableFile]).2 (by decide)
     ⟨unreadableFile, List.mem_singleton.mpr rfl, rfl⟩⟩

/-! ## The shape of the third-revision mostEdited list -/

theorem mostEditedV3_length_le (g : JsGraph) : (mostEditedV3 g).length ≤ 5 := by
  simp only [mostEditedV3, List.length_map, List.length_take]
  exact min_le_left _ _

theorem mostEditedV3_sorted (g : JsGraph) :
    (mostEditedV3 g).Pairwise (fun a b => b.2 ≤ a.2) := by
  have hs : (g.nodes.insertionSort commitsGE).Pairwise commitsGE :=
    List.sorted_insertionSort commitsGE g.nodes
  have ht : ((g.nodes.insertionSort commitsGE).take 5).Pairwise commitsGE :=
    List.Pairwise.sublist (List.take_sublist 5 _) hs
  simp only [mostEditedV3, List.pairwise_map]
  exact ht.imp (fun h => h)

theorem mostEditedV3_mem (g : JsGraph) (e : String × Nat) (he : e ∈ mostEditedV3 g) :
    ∃ kv ∈ g.nodes, kv.2.label = e.1 ∧ kv.2.commits = e.2 := by
  simp only [mostEditedV3, List.mem_map] at he
  obtain ⟨kv, hkv, rfl⟩ := he
  have h1 : kv ∈ g.nodes.insertionSort commitsGE := List.mem_of_mem_take hkv
  have h2 : kv ∈ g.nodes := (List.perm_insertionSort commitsGE g.nodes).mem_iff.mp h1
  exact ⟨kv, h2, rfl, rfl⟩

theorem filter_orderedInsert_of_commits_eq (k : Nat) (x : String × NodeAttrs)
    (s : List (String × NodeAttrs)) (hx : x.2.commits = k) :
    (s.orderedInsert commitsGE x).filter (fun kv => kv.2.commits == k)
      = x :: s.filter (fun kv => kv.2.commits == k) := by
  induction s with
  | nil => simp [List.orderedInsert, hx]
  | cons y ys ih =>
    by_cases h : commitsGE x y
    · rw [List.orderedInsert_of_le commitsGE ys h]
      simp [List.filter_cons, hx]
    · have hy : (y.2.commits == k) = false := by
        refine beq_eq_false_iff_ne.mpr ?_
        simp only [commitsGE, hx] at h
        omega
      simp only [List.orderedInsert, if_neg h]
      simp [List.filter_cons, hy, ih]

theorem filter_orderedInsert_of_commits_ne (k : Nat) (x : String × NodeAttrs)
    (s : List (String × NodeAttrs)) (hx : x.2.commits ≠ k) :
    (s.orderedInsert commitsGE x).filter (fun kv => kv.2.commits == k)
      = s.filter (fun kv => kv.2.commits == k) := by
  have hxf : (x.2.commits == k) = false := beq_eq_false_iff_ne.mpr hx
  induction s with
  | nil => simp [List.orderedInsert, hxf]
  | cons y ys ih =>
    by_cases h : commitsGE x y
    · rw [List.orderedInsert_of_le commitsGE ys h]
      simp [List.filter_cons, hxf]
    · simp only [List.orderedInsert, if_neg h]
      simp [List.filter_cons, ih]

/-- The stability criterion for the embedded sort: within every churn
tie class, the sorted list keeps exactly the original scan order. -/
theorem filter_insertionSort_commits (k : Nat) (l : List (String × NodeAttrs)) :
    (l.insertionSort commitsGE).filter (fun kv => kv.2.commits == k)
      = l.filter (fun kv => kv.2.commits == k) := by
  induction l with
  | nil => rfl
  | cons x xs ih =>
    simp only [List.insertionSort]
    by_cases hx : x.2.commits = k
    · rw [filter_orderedInsert_of_commits_eq k x _ hx, ih]
      simp [List.filter_cons, hx]
    · rw [filter_orderedInsert_of_commits_ne k x _ hx, ih]
      simp [List.filter_cons, beq_eq_false_iff_ne.mpr hx]

/-- Claim C7 (amended): in a completed third-revision build `mostEdited`
has at most five entries, is ordered by churn descending with ties broken
by original scan order, and every entry carries the display name
(`label`) and churn of a graph node: `mostEdited` is exactly the
five-entry prefix of the stable descending sort of the node list — a
permutation of the nodes, pairwise descending, agreeing with the scan
order inside every churn tie class (which, together with any pair
already in comparator order staying in order, determines the list
uniquely).  The `churn > 0` restriction does NOT hold in this revision
(see the counterexample) — zero-churn files fill the remaining slots;
only the second-revision build filters `commits > 0`. -/
theorem claimC7_amended (files : List SrcFile) (r : BuildOut) (s : BuildStats)
    (h : buildRepoGraphV3 (some files) = Except.ok r) (hs : r.stats = some s) :
    s.mostEdited.length ≤ 5
    ∧ s.mostEdited.Pairwise (fun a b => b.2 ≤ a.2)
    ∧ (∀ e ∈ s.mostEdited,
        ∃ kv ∈ (graphV3 files).nodes, kv.2.label = e.1 ∧ kv.2.commits = e.2)
    ∧ ∃ sorted : List (String × NodeAttrs),
        sorted.Perm (graphV3 files).nodes
        ∧ sorted.Pairwise (fun a b => b.2.commits ≤ a.2.commits)
        ∧ (∀ k : Nat, sorted.filter (fun kv => kv.2.commits == k)
            = (graphV3 files).nodes.filter (fun kv => kv.2.commits == k))
        ∧ (∀ a b : String × NodeAttrs, [a, b].Sublist (graphV3 files).nodes →
            b.2.commits ≤ a.2.commits → [a, b].Sublist sorted)
        ∧ s.mostEdited = (sorted.take 5).map (fun kv => (kv.2.label, kv.2.commits)) := by
  cases hsc : (if files.isEmpty then Except.ok (0 : Rat)
               else (statsSum (graphV3 files) files).map
                 (fun n => (n : Rat) / (files.length : Rat))) with
  | error e =>
    rw [buildV3_error_of_scrutinee files e hsc] at h
    cases h
  | ok avg =>
    rw [buildV3_ok_of_scrutinee files avg hsc] at h
    have hr := Except.ok.inj h
    rw [← hr] at hs
    simp only [Option.some.injEq] at hs
    rw [← hs]
    refine ⟨mostEditedV3_length_le _, mostEditedV3_sorted _,
      fun e he => mostEditedV3_mem _ e he,
      (graphV3 files).nodes.insertionSort commitsGE,
      List.perm_insertionSort commitsGE _,
      (List.sorted_insertionSort commitsGE _).imp (fun hab => hab),
      fun k => filter_insertionSort_commits k _,
      fun a b h1 h2 => List.pair_sublist_insertionSort h2 h1,
      rfl⟩

/-- Witness for C7 (amended), at a concrete one-file build. -/
theorem claimC7_witness :
    ∃ r : BuildOut, ∃ s : BuildStats,
      buildRepoGraphV3 (some [zeroChurnFile]) = Except.ok r ∧ r.stats = some s
      ∧ s.mostEdited.length ≤ 5
      ∧ s.mostEdited.Pairwise (fun a b => b.2 ≤ a.2) := by
  have hok : (buildRepoGraphV3 (some [zeroChurnFile])).isOk = true := by decide
  cases hb : buildRepoGraphV3 (some [zeroChurnFile]) with
  | error e =>
    rw [hb] at hok
    simp [Except.isOk, Except.toBool] at hok
  | ok r =>
    cases hstats : r.stats with
    | none =>
      exfalso
      have hsome : (buildRepoGraphV3 (some [zeroChurnFile])).map
          (fun out => out.stats.isSome) = Except.ok true := by decide
      rw [hb] at hsome
      simp only [Except.map, Except.ok.injEq] at hsome
      rw [hstats] at hsome
      cases hsome
    | some s =>
      have hc := claimC7_amended [zeroChurnFile] r s hb hstats
      exact ⟨r, s, rfl, hstats, hc.1, hc.2.1⟩

/-! ## The complexity regex: scan count versus positional count -/

theorem bne_true_eq_not (b : Bool) : (b != true) = !b := by cases b <;> rfl

theorem true_bne_eq_not (b : Bool) : (true != b) = !b := by cases b <;> rfl

theorem bne_false_eq (b : Bool) : (b != false) = b := by cases b <;> rfl

theorem false_bne_eq (b : Bool) : (false != b) = b := by cases b <;> rfl

theorem isSome_find?_eq_any {α : Type} (p : α → Bool) (l : List α) :
    (l.find? p).isSome = l.any p := by
  induction l with
  | nil => rfl
  | cons a t ih =>
    cases h : p a
    · simp [List.find?_cons_of_neg, h, ih]
    · simp [List.find?_cons_of_pos, h]

theorem tokMatch_eq_kwAt (prev : Option Char) (tok s : List Char)
    (h1 : wordOpt tok.head? = true) (h2 : wordOpt tok.getLast? = true) :
    tokMatch prev tok s = kwAt prev tok s := by
  simp only [tokMatch, kwAt, h1, h2, bne_true_eq_not, true_bne_eq_not]

theorem tokMatch_eq_opAt (prev : Option Char) (tok s : List Char)
    (h1 : wordOpt tok.head? = false) (h2 : wordOpt tok.getLast? = false) :
    tokMatch prev tok s = opAt prev tok s := by
  simp only [tokMatch, opAt, h1, h2, bne_false_eq, false_bne_eq]

theorem findTok_isSome_eq (prev : Option Char) (s : List Char) :
    (findTok prev s).isSome = amendedTokAt prev s := by
  rw [findTok, isSome_find?_eq_any]
  simp only [regexToks, List.any_cons, List.any_nil]
  rw [tokMatch_eq_kwAt prev ['i', 'f'] s (by decide) (by decide),
      tokMatch_eq_kwAt prev ['f', 'o', 'r'] s (by decide) (by decide),
      tokMatch_eq_kwAt prev ['w', 'h', 'i', 'l', 'e'] s (by decide) (by decide),
      tokMatch_eq_kwAt prev ['c', 'a', 's', 'e'] s (by decide) (by decide),
      tokMatch_eq_kwAt prev ['c', 'a', 't', 'c', 'h'] s (by decide) (by decide),
      tokMatch_eq_opAt prev ['&', '&'] s (by decide) (by decide),
      tokMatch_eq_opAt prev ['|', '|'] s (by decide) (by decide)]
  simp only [amendedTokAt, kwToks, List.any_cons, List.any_nil]
  simp [Bool.or_assoc]

theorem amendedTokAt_word_left (l c : Char) (r : List Char)
    (hl : isWordChar l = true) (hamp : c ≠ '&') (hbar : c ≠ '|') :
    amendedTokAt (some l) (c :: r) = false := by
  have h1 : (('&' : Char) == c) = false := beq_eq_false_iff_ne.mpr (fun h => hamp h.symm)
  have h2 : (('|' : Char) == c) = false := beq_eq_false_iff_ne.mpr (fun h => hbar h.symm)
  simp [amendedTokAt, kwToks, kwAt, opAt, wordOpt, hl, List.isPrefixOf, h1, h2]

theorem amendedTokAt_after_op (c : Char) (r : List Char) (l : Char)
    (hc : c = '&' ∨ c = '|') (hl : isWordChar l = false) :
    amendedTokAt (some l) (c :: r) = false := by
  rcases hc with rfl | rfl <;>
    simp [amendedTokAt, kwToks, kwAt, opAt, wordOpt, hl, List.isPrefixOf,
      (by decide : (('i' : Char) == '&') = false),
      (by decide : (('f' : Char) == '&') = false),
      (by decide : (('w' : Char) == '&') = false),
      (by decide : (('c' : Char) == '&') = false),
      (by decide : (('i' : Char) == '|') = false),
      (by decide : (('f' : Char) == '|') = false),
      (by decide : (('w' : Char) == '|') = false),
      (by decide : (('c' : Char) == '|') = false)]

theorem posCount_of_findTok (prev : Option Char) (s : List Char) (tok : List Char)
    (h : findTok prev s = some tok) :
    posCount prev s = 1 + posCount tok.getLast? (s.drop tok.length) := by
  have h' : regexToks.find? (fun tok => tokMatch prev tok s) = some tok := h
  have hmem : tok ∈ regexToks := List.mem_of_find?_eq_some h'
  have hmatch := List.find?_some h'
  have hAt : amendedTokAt prev s = true := by
    rw [← findTok_isSome_eq, h]
    rfl
  have hpfx : tok.isPrefixOf s = true := by
    simp only [tokMatch, Bool.and_eq_true] at hmatch
    exact hmatch.1.1
  simp only [regexToks, List.mem_cons, List.not_mem_nil, or_false] at hmem
  rcases hmem with rfl | rfl | rfl | rfl | rfl | rfl | rfl
  · -- if
    obtain ⟨t, ht⟩ := List.isPrefixOf_iff_prefix.mp hpfx
    subst ht
    simp only [List.cons_append, List.nil_append] at hAt ⊢
    have h1 : amendedTokAt (some 'i') ('f' :: t) = false :=
      amendedTokAt_word_left 'i' 'f' t (by decide) (by decide) (by decide)
    simp [posCount, hAt, h1, List.getLast?]
  · -- for
    obtain ⟨t, ht⟩ := List.isPrefixOf_iff_prefix.mp hpfx
    subst ht
    simp only [List.cons_append, List.nil_append] at hAt ⊢
    have h1 : amendedTokAt (some 'f') ('o' :: 'r' :: t) = false :=
      amendedTokAt_word_left 'f' 'o' _ (by decide) (by decide) (by decide)
    have h2 : amendedTokAt (some 'o') ('r' :: t) = false :=
      amendedTokAt_word_left 'o' 'r' t (by decide) (by decide) (by decide)
    simp [posCount, hAt, h1, h2, List.getLast?]
  · -- while
    obtain ⟨t, ht⟩ := List.isPrefixOf_iff_prefix.mp hpfx
    subst ht
    simp only [List.cons_append, List.nil_append] at hAt ⊢
    have h1 : amendedTokAt (some 'w') ('h' :: 'i' :: 'l' :: 'e' :: t) = false :=
      amendedTokAt_word_left 'w' 'h' _ (by decide) (by decide) (by decide)
    have h2 : amendedTokAt (some 'h') ('i' :: 'l' :: 'e' :: t) = false :=
      amendedTokAt_word_left 'h' 'i' _ (by decide) (by decide) (by decide)
    have h3 : amendedTokAt (some 'i') ('l' :: 'e' :: t) = false :=
      amendedTokAt_word_left 'i' 'l' _ (by decide) (by decide) (by decide)
    have h4 : amendedTokAt (some 'l') ('e' :: t) = false :=
      amendedTokAt_word_left 'l' 'e' t (by decide) (by decide) (by decide)
    simp [posCount, hAt, h1, h2, h3, h4, List.getLast?]
  · -- case
    obtain ⟨t, ht⟩ := List.isPrefixOf_iff_prefix.mp hpfx
    subst ht
    simp only [List.cons_append, List.nil_append] at hAt ⊢
    have h1 : amendedTokAt (some 'c') ('a' :: 's' :: 'e' :: t) = false :=
      amendedTokAt_word_left 'c' 'a' _ (by decide) (by decide) (by decide)
    have h2 : amendedTokAt (some 'a') ('s' :: 'e' :: t) = false :=
      amendedTokAt_word_left 'a' 's' _ (by decide) (by decide) (by decide)
    have h3 : amendedTokAt (some 's') ('e' :: t) = false :=
      amendedTokAt_word_left 's' 'e' t (by decide) (by decide) (by decide)
    simp [posCount, hAt, h1, h2, h3, List.getLast?]
  · -- catch
    obtain ⟨t, ht⟩ := List.isPrefixOf_iff_prefix.mp hpfx
    subst ht
    simp only [List.cons_append, List.nil_append] at hAt ⊢
    have h1 : amendedTokAt (some 'c') ('a' :: 't' :: 'c' :: 'h' :: t) = false :=
      amendedTokAt_word_left 'c' 'a' _ (by decide) (by decide) (by decide)
    have h2 : amendedTokAt (some 'a') ('t' :: 'c' :: 'h' :: t) = false :=
      amendedTokAt_word_left 'a' 't' _ (by decide) (by decide) (by decide)
    have h3 : amendedTokAt (some 't') ('c' :: 'h' :: t) = false :=
      amendedTokAt_word_left 't' 'c' _ (by decide) (by decide) (by decide)
    have h4 : amendedTokAt (some 'c') ('h' :: t) = false :=
      amendedTokAt_word_left 'c' 'h' t (by decide) (by decide) (by decide)
    simp [posCount, hAt, h1, h2, h3, h4, List.getLast?]
  · -- &&
    obtain ⟨t, ht⟩ := List.isPrefixOf_iff_prefix.mp hpfx
    subst ht
    simp only [List.cons_append, List.nil_append] at hAt ⊢
    have h1 : amendedTokAt (some '&') ('&' :: t) = false :=
      amendedTokAt_after_op '&' t '&' (Or.inl rfl) (by decide)
    simp [posCount, hAt, h1, List.getLast?]
  · -- ||
    obtain ⟨t, ht⟩ := List.isPrefixOf_iff_prefix.mp hpfx
    subst ht
    simp only [List.cons_append, List.nil_append] at hAt ⊢
    have h1 : amendedTokAt (some '|') ('|' :: t) = false :=
      amendedTokAt_after_op '|' t '|' (Or.inr rfl) (by decide)
    simp [posCount, hAt, h1, List.getLast?]

theorem scanCount_eq_posCount :
    ∀ (n : Nat) (s : List Char), s.length ≤ n → ∀ (prev : Option Char),
      scanCount 0 prev s = posCount prev s := by
  intro n
  induction n with
  | zero =>
    intro s hs prev
    have hnil : s = [] := List.length_eq_zero.mp (Nat.le_zero.mp hs)
    subst hnil
    rfl
  | succ n ih =>
    intro s hs prev
    cases s with
    | nil => rfl
    | cons c rest =>
      cases hf : findTok prev (c :: rest) with
      | none =>
        have hAt : amendedTokAt prev (c :: rest) = false := by
          rw [← findTok_isSome_eq, hf]
          rfl
        simp only [scanCount, hf, posCount, hAt, Bool.false_eq_true, if_false, Nat.zero_add]
        exact ih rest (by simp only [List.length_cons] at hs; omega) (some c)
      | some tok =>
        have hpos := posCount_of_findTok prev (c :: rest) tok hf
        have h' : regexToks.find? (fun tk => tokMatch prev tk (c :: rest)) = some tok := hf
        have hmem : tok ∈ regexToks := List.mem_of_find?_eq_some h'
        have hmatch := List.find?_some h'
        have hpfx : tok.isPrefixOf (c :: rest) = true := by
          simp only [tokMatch, Bool.and_eq_true] at hmatch
          exact hmatch.1.1
        have hlen : rest.length ≤ n := by
          simp only [List.length_cons] at hs
          omega
        simp only [regexToks, List.mem_cons, List.not_mem_nil, or_false] at hmem
        rcases hmem with rfl | rfl | rfl | rfl | rfl | rfl | rfl
        · -- if
          obtain ⟨t, ht⟩ := List.isPrefixOf_iff_prefix.mp hpfx
          simp only [List.cons_append, List.nil_append] at ht
          obtain ⟨rfl, rfl⟩ := ht
          rw [hpos]
          simp only [scanCount, hf, List.length_cons, List.length_nil, List.getLast?,
            List.drop_succ_cons, List.drop_zero]
          rw [ih t (by simp only [List.length_cons] at hlen; omega) (some 'f')]
          rfl
        · -- for
          obtain ⟨t, ht⟩ := List.isPrefixOf_iff_prefix.mp hpfx
          simp only [List.cons_append, List.nil_append] at ht
          obtain ⟨rfl, rfl⟩ := ht
          rw [hpos]
          simp only [scanCount, hf, List.length_cons, List.length_nil, List.getLast?,
            List.drop_succ_cons, List.drop_zero]
          rw [ih t (by simp only [List.length_cons] at hlen; omega) (some 'r')]
          rfl
        · -- while
          obtain ⟨t, ht⟩ := List.isPrefixOf_iff_prefix.mp hpfx
          simp only [List.cons_append, List.nil_append] at ht
          obtain ⟨rfl, rfl⟩ := ht
          rw [hpos]
          simp only [scanCount, hf, List.length_cons, List.length_nil, List.getLast?,
            List.drop_succ_cons, List.drop_zero]
          rw [ih t (by simp only [List.length_cons] at hlen; omega) (some 'e')]
          rfl
        · -- case
          obtain ⟨t, ht⟩ := List.isPrefixOf_iff_prefix.mp hpfx
          simp only [List.cons_append, List.nil_append] at ht
          obtain ⟨rfl, rfl⟩ := ht
          rw [hpos]
          simp only [scanCount, hf, List.length_cons, List.length_nil, List.getLast?,
            List.drop_succ_cons, List.drop_zero]
          rw [ih t (by simp only [List.length_cons] at hlen; omega) (some 'e')]
          rfl
        · -- catch
          obtain ⟨t, ht⟩ := List.isPrefixOf_iff_prefix.mp hpfx
          simp only [List.cons_append, List.nil_append] at ht
          obtain ⟨rfl, rfl⟩ := ht
          rw [hpos]
          simp only [scanCount, hf, List.length_cons, List.length_nil, List.getLast?,
            List.drop_succ_cons, List.drop_zero]
          rw [ih t (by simp only [List.length_cons] at hlen; omega) (some 'h')]
          rfl
        · -- &&
          obtain ⟨t, ht⟩ := List.isPrefixOf_iff_prefix.mp hpfx
          simp only [List.cons_append, List.nil_append] at ht
          obtain ⟨rfl, rfl⟩ := ht
          rw [hpos]
          simp only [scanCount, hf, List.length_cons, List.length_nil, List.getLast?,
            List.drop_succ_cons, List.drop_zero]
          rw [ih t (by simp only [List.length_cons] at hlen; omega) (some '&')]
          rfl
        · -- ||
          obtain ⟨t, ht⟩ := List.isPrefixOf_iff_prefix.mp hpfx
          simp only [List.cons_append, List.nil_append] at ht
          obtain ⟨rfl, rfl⟩ := ht
          rw [hpos]
          simp only [scanCount, hf, List.length_cons, List.length_nil, List.getLast?,
            List.drop_succ_cons, List.drop_zero]
          rw [ih t (by simp only [List.length_cons] at hlen; omega) (some '|')]
          rfl

/-- Claim C5, counterexample: the regex `\b(...|&&|\|\|)\b` cannot match
a spaced short-circuit operator, because `\b` fails between a space and
`&`; the computed complexity of `"a && b"` is therefore 1, while the
claim (every genuine occurrence of `&&` counted) demands 1 + 1 = 2. -/
theorem claimC5_counterexample :
    complexity ("a && b") = 1 ∧ claimComplexityC5 ("a && b") = 2
    ∧ (decide (complexity ("a && b") = claimComplexityC5 ("a && b"))) = false := by decide

/-- Claim C5 (amended): for every file content the computed complexity
equals 1 plus the number of positions carrying a whole-word occurrence of
a keyword (`if`, `for`, `while`, `case`, `catch`) — so tokens embedded in
identifiers such as `modifier` are never counted — or an occurrence of
`&&` / `||` flanked by word characters on BOTH sides (as in `a&&b`);
spaced operators as in `a && b` are not counted. -/
theorem claimC5_amended (content : String) :
    complexity content = amendedComplexity content := by
  rw [complexity, amendedComplexity,
    scanCount_eq_posCount content.toList.length content.toList le_rfl none]
